import Mathlib

/-!
Verification of the network interception core of `packages/core/src/network.js`.

The JavaScript source is shallowly embedded below.  Pure decision logic is
translated into executable Lean functions; the stateful `Network` class becomes
an explicit state record with one transition function per protocol handler.
External collaborators that are out of scope for the core (the resource cache,
hostname glob matching, URL normalization, MIME inference, base64, the HTTP
client) are passed in as function-valued parameters, mirroring the interface
they expose to the core.  Asynchronous suspension points (awaited latches,
outbound protocol sends, the post-error scheduler tick) are modelled by
observation parameters: the value an external query would return at that
suspension point.
-/

namespace PercyNet

/-! ## Character-list models of the JavaScript string operations used by the source -/

/-- Model of JS `String.prototype.startsWith` on character lists: `pat` leads `s`. -/
def leadsWith : List Char → List Char → Bool
  | [], _ => true
  | _ :: _, [] => false
  | a :: as, b :: bs => a == b && leadsWith as bs

/-- Model of JS `String.prototype.includes` on character lists: `pat` occurs in `s`. -/
def occursIn (pat : List Char) : List Char → Bool
  | [] => leadsWith pat []
  | c :: rest => leadsWith pat (c :: rest) || occursIn pat rest

/-- JS `s.startsWith(pat)`. -/
def strStartsWith (s pat : String) : Bool := leadsWith pat.data s.data

/-- JS `s.includes(pat)`. -/
def strIncludes (s pat : String) : Bool := occursIn pat.data s.data

/-- JS `Array.prototype.join(sep)`. -/
def joinWith (sep : String) : List String → String
  | [] => ""
  | [a] => a
  | a :: b :: rest => a ++ sep ++ joinWith sep (b :: rest)

/-! ## Constants from the head of network.js -/

def MAX_RESOURCE_SIZE : Nat := 25 * 1024 ^ 2

def ALLOWED_STATUSES : List Nat := [200, 201, 301, 302, 304, 307, 308]

def ALLOWED_RESOURCES : List String :=
  ["Document", "Stylesheet", "Image", "Media", "Font", "Other"]

def ABORTED_MESSAGE : String := "Request was aborted by browser"

/-! ## Data model -/

/-- A resource held by the external cache (`intercept.getResource`).  `status`
is absent-able and `0` is JS-falsy in `resource.status || 200`. -/
structure Resource where
  root : Bool := false
  provided : Bool := false
  status : Option Nat := none
  content : String := ""
  headers : List (String × String) := []
  deriving Repr, DecidableEq

/-- The `intercept` configuration object handed to the Network class. -/
structure Intercept where
  getResource : String → Option Resource
  disallowedHostnames : List String := []
  allowedHostnames : List String := []
  disableCache : Bool := false
  enableJavaScript : Bool := false

/-- Authorization credentials; JS `undefined` and `''` are both falsy, so absent
fields are modelled by the empty string. -/
structure Auth where
  username : String := ""
  password : String := ""
  deriving Repr, DecidableEq

/-- The response attached to a request record by `_handleResponseReceived`.
The deferred `buffer()` closure is modelled by passing its eventual outcome to
the capture path as a parameter. -/
structure Response where
  status : Nat
  mimeType : Option String := none
  headers : List (String × String) := []
  deriving Repr, DecidableEq

/-- A request record stored in the `#requests` registry.  Entries of
`redirectChain` are prior records of the same logical navigation; the core
consumes only their `url` field (in `originURL`), so chain entries are
modelled by their URL. -/
structure StoredRequest where
  url : String
  method : String := "GET"
  headers : List (String × String) := []
  type : Option String := none
  requestId : String := ""
  interceptId : Option String := none
  redirectChain : List String := []
  response : Option Response := none
  deriving Repr, DecidableEq

/-- External collaborators used by the decider and the capturer, specified only
by interface in the design (hostname-glob matching, URL normalization, MIME
inference, base64 encoding, the direct HTTP client). -/
structure Extern where
  hostnameMatches : List String → String → Bool
  normalizeURL : String → String
  mimeLookup : String → Option String
  urlOriginPath : String → Option String
  base64 : String → String
  directFetch : String → List (String × String) → Except Unit (List Nat)

/-! ## The guarded send (§4.G) -/

/-- Parameters of an outbound devtools command, covering the fields the core sends. -/
structure FetchParams where
  requestId : Option String := none
  errorReason : Option String := none
  responseCode : Option Nat := none
  body : Option String := none
  responseHeaders : Option (List (String × String)) := none
  authChallengeResponse : Option (String × String × String) := none
  deriving Repr, DecidableEq

/-- Outcome of `session.send` as observed by the core. -/
inductive SendResult where
  | ok
  | err (msg : String)
  deriving Repr, DecidableEq

/-- Result of the guarded `Network.send`: either the aborted sentinel was thrown
before reaching the session, or the command was forwarded to `session.send`
(recording exactly what was forwarded and what the session returned). -/
inductive GuardedOutcome where
  | thrown (msg : String)
  | forwarded (method : String) (params : FetchParams) (result : SendResult)
  deriving Repr, DecidableEq

/-- The error message an outcome raises, if any (a thrown sentinel, or a
rejection from the session). -/
def GuardedOutcome.errMsg : GuardedOutcome → Option String
  | .thrown m => some m
  | .forwarded _ _ (.err m) => some m
  | .forwarded _ _ .ok => none

/-- True when the command actually reached the browser and succeeded. -/
def GuardedOutcome.issuedOk : GuardedOutcome → Bool
  | .forwarded _ _ .ok => true
  | _ => false

/-- Embedding of `Network.send`: `if (params.requestId) { if (isAborted) throw }`
then forward.  `aborted` is the membership test of the aborted set at the time
of the call; `sessionSend` is the session's behaviour. -/
def sendGuarded (aborted : String → Bool)
    (sessionSend : String → FetchParams → SendResult)
    (method : String) (params : FetchParams) : GuardedOutcome :=
  match params.requestId with
  | some rid =>
    if rid ≠ "" then
      if aborted rid then .thrown ABORTED_MESSAGE
      else .forwarded method params (sessionSend method params)
    else .forwarded method params (sessionSend method params)
  | none => .forwarded method params (sessionSend method params)

/-! ## The interception decider (§4.D, `sendResponseResource`) -/

/-- Observations of the mutable world at the decider's suspension points:
whether the session is closing, the aborted-set membership test at each of the
three moments it can be consulted (first send, after the deferred tick,
fallback send), and the session's response to outbound commands. -/
structure SendCtx where
  sessionClosing : Bool := false
  abortedAtFirst : String → Bool := fun _ => false
  abortedAfterTick : String → Bool := fun _ => false
  abortedAtFallback : String → Bool := fun _ => false
  sessionSend : String → FetchParams → SendResult := fun _ _ => .ok

/-- JS `resource?.root` with undefined-is-falsy. -/
def rootOf (resource : Option Resource) : Bool :=
  (resource.map Resource.root).getD false

/-- `originURL`: the normalized URL of the first hop of the redirect chain, or
of the request itself when the chain is empty. -/
def originURL (ext : Extern) (request : StoredRequest) : String :=
  ext.normalizeURL (request.redirectChain.head?.getD request.url)

/-- JS `resource.status || 200` (0 and absent are falsy). -/
def statusOr200 (status : Option Nat) : Nat :=
  match status with
  | some s => if s != 0 then s else 200
  | none => 200

/-- The single continuation command chosen by the try-block of
`sendResponseResource`: fail on disallowed non-root, fulfill from cache for
root/provided/cache-enabled hits, otherwise continue. -/
def decideCommand (ext : Extern) (icpt : Intercept) (request : StoredRequest) :
    String × FetchParams :=
  let url := originURL ext request
  let resource := icpt.getResource url
  if !(rootOf resource) && ext.hostnameMatches icpt.disallowedHostnames url then
    ("Fetch.failRequest",
      { requestId := request.interceptId, errorReason := some "Aborted" })
  else
    match resource with
    | some r =>
      if r.root || r.provided || !icpt.disableCache then
        ("Fetch.fulfillRequest",
          { requestId := request.interceptId,
            responseCode := some (statusOr200 r.status),
            body := some (ext.base64 r.content),
            responseHeaders := some (r.headers.map fun kv => (kv.1.toLower, kv.2)) })
      else
        ("Fetch.continueRequest", { requestId := request.interceptId })
    | none =>
      ("Fetch.continueRequest", { requestId := request.interceptId })

/-- The first (guarded) send attempt of `sendResponseResource`. -/
def firstOutcome (ext : Extern) (icpt : Intercept) (ctx : SendCtx)
    (request : StoredRequest) : GuardedOutcome :=
  let cmd := decideCommand ext icpt request
  sendGuarded ctx.abortedAtFirst ctx.sessionSend cmd.1 cmd.2

/-- Embedding of `sendResponseResource`: attempt the decided command; on error,
return silently if the session is closing on a close error, or if the message
is the aborted sentinel / Invalid InterceptionId and, after deferring a tick,
the request is found aborted; otherwise attempt `failRequest Failed`, whose own
error is swallowed.  The returned list is the sequence of send attempts. -/
def sendResponseResource (ext : Extern) (icpt : Intercept) (ctx : SendCtx)
    (request : StoredRequest) : List GuardedOutcome :=
  let first := firstOutcome ext icpt ctx request
  match first.errMsg with
  | none => [first]
  | some msg =>
    if ctx.sessionClosing && strIncludes msg "close" then [first]
    else if (msg == ABORTED_MESSAGE || strIncludes msg "Invalid InterceptionId")
        && ctx.abortedAfterTick request.requestId then [first]
    else
      [first,
        sendGuarded ctx.abortedAtFallback ctx.sessionSend "Fetch.failRequest"
          { requestId := request.interceptId, errorReason := some "Failed" }]

/-- Number of continuation commands that were successfully issued. -/
def issuedCount (atts : List GuardedOutcome) : Nat :=
  (atts.filter GuardedOutcome.issuedOk).length

/-! ## The response capturer (§4.E, `saveResponseResource` and `makeDirectRequest`) -/

/-- Headers of the direct HTTP re-fetch built by `makeDirectRequest`: the
request's own headers, plus a Basic Authorization header when
`network.authorization?.username` is truthy.  JS object-property assignment
replaces an existing key; position is immaterial here. -/
def makeDirectRequestHeaders (b64 : String → String) (auth : Option Auth)
    (request : StoredRequest) : List (String × String) :=
  match auth with
  | some a =>
    if a.username ≠ "" then
      (request.headers.filter fun kv => kv.1 != "Authorization") ++
        [("Authorization", "Basic " ++ b64 (a.username ++ ":" ++ a.password))]
    else request.headers
  | none => request.headers

/-- Embedding of `makeDirectRequest`: fetch `request.url` over HTTP with the
augmented headers, returning the raw body bytes (or an error). -/
def makeDirectRequest (ext : Extern) (auth : Option Auth)
    (request : StoredRequest) : Except Unit (List Nat) :=
  ext.directFetch request.url (makeDirectRequestHeaders ext.base64 auth request)

/-- A resource assembled by the external `createResource` helper, modelled by
the argument tuple the capturer hands to it (response headers already split on
newlines). -/
structure CapturedResource where
  url : String
  content : List Nat
  mimetype : Option String := none
  status : Nat := 200
  headers : List (String × List String) := []
  deriving Repr, DecidableEq

/-- What `intercept.saveResource` is called with, when it is called: either the
already-cached resource, or a resource newly captured from this response. -/
inductive Saved where
  | cached (r : Resource)
  | captured (c : CapturedResource)
  deriving Repr, DecidableEq

/-- The guard at the top of `saveResponseResource`: the capture branch runs iff
there is no cached resource, or the cached one is neither root nor provided and
`disableCache` is set. -/
def capturePathTaken (resource : Option Resource) (disableCache : Bool) : Bool :=
  match resource with
  | none => true
  | some r => !r.root && !r.provided && disableCache

/-- Result of the capture branch's try-block. -/
inductive CaptureStep where
  | skip
  | errored
  | made (c : CapturedResource)
  deriving Repr, DecidableEq

/-- JS membership of the optional `request.type` in `ALLOWED_RESOURCES`
(`includes(undefined)` is false). -/
def typeAllowed (type : Option String) : Bool :=
  match type with
  | some t => ALLOWED_RESOURCES.contains t
  | none => false

/-- The MIME refinement of the capture branch: JS
`(response.mimeType === 'text/plain' && detectedMime) || response.mimeType`. -/
def effectiveMime (respMime detectedMime : Option String) : Option String :=
  match respMime, detectedMime with
  | some "text/plain", some d => some d
  | m, _ => m

/-- The font trigger of the capture branch: JS
`mimeType?.includes('font') || (detectedMime && detectedMime.includes('font'))`. -/
def isFontMime (mimeType detectedMime : Option String) : Bool :=
  (match mimeType with
   | some m => strIncludes m "font"
   | none => false) ||
  (match detectedMime with
   | some d => strIncludes d "font"
   | none => false)

/-- The try-block of the capture branch: buffer the body, apply the capture
filters in source order (each early `return` is `skip`), refine the MIME type,
re-fetch fonts directly, and assemble the resource.  `bufferResult` is the
outcome of the deferred `response.buffer()` closure; a thrown error anywhere is
`errored` (caught and swallowed by the caller). -/
def captureAttempt (ext : Extern) (icpt : Intercept) (auth : Option Auth)
    (request : StoredRequest) (url : String)
    (bufferResult : Except Unit (List Nat)) : CaptureStep :=
  match request.response with
  | none => .skip
  | some resp =>
    if !(ext.hostnameMatches icpt.allowedHostnames url) then .skip
    else
      match bufferResult with
      | .error _ => .errored
      | .ok body =>
        if body.length == 0 then .skip
        else if body.length > MAX_RESOURCE_SIZE then .skip
        else if !(ALLOWED_STATUSES.contains resp.status) then .skip
        else if !icpt.enableJavaScript && !(typeAllowed request.type) then .skip
        else
          match ext.urlOriginPath url with
          | none => .errored
          | some path =>
            let detectedMime := ext.mimeLookup path
            let mimeType : Option String := effectiveMime resp.mimeType detectedMime
            let isFont := isFontMime mimeType detectedMime
            let splitHeaders := resp.headers.map fun kv => (kv.1, kv.2.splitOn "\n")
            if isFont then
              match makeDirectRequest ext auth request with
              | .error _ => .errored
              | .ok dbody =>
                .made { url := url, content := dbody, mimetype := mimeType,
                        status := resp.status, headers := splitHeaders }
            else
              .made { url := url, content := body, mimetype := mimeType,
                      status := resp.status, headers := splitHeaders }

/-- Embedding of `saveResponseResource`: run the capture branch when the guard
allows; a filter skip returns without saving anything, an error falls back to
the cached resource (if one exists), a successful capture saves the new
resource; when the guard blocks, the cached resource is (re-)saved. -/
def saveResponseResource (ext : Extern) (icpt : Intercept) (auth : Option Auth)
    (request : StoredRequest) (bufferResult : Except Unit (List Nat)) :
    Option Saved :=
  let url := originURL ext request
  let resource := icpt.getResource url
  if capturePathTaken resource icpt.disableCache then
    match captureAttempt ext icpt auth request url bufferResult with
    | .skip => none
    | .errored => resource.map .cached
    | .made c => some (.captured c)
  else resource.map .cached

/-- True when the save outcome is a resource captured from this response. -/
def isCapturedSave : Option Saved → Bool
  | some (.captured _) => true
  | _ => false

/-- Content of the captured resource, when the capture branch produced one. -/
def capturedContent : CaptureStep → Option (List Nat)
  | .made c => some c.content
  | _ => none

/-- Coercion of an Except outcome to an Option. -/
def exceptBody : Except Unit (List Nat) → Option (List Nat)
  | .ok b => some b
  | .error _ => none

/-! ## The Network state machine (§4.B, §4.C)

The class fields `#pending`, `#requests`, `#authentications`, `#aborted` and
the per-request lifecycle latches become one state record.  Each protocol
handler becomes a transition; a handler that is still suspended on an
unresolved latch returns `none` (it has not proceeded past its `await`). -/

/-- JS `Map.get`. -/
def mapGet {α : Type} (m : List (String × α)) (k : String) : Option α :=
  (m.find? fun kv => kv.1 == k).map fun kv => kv.2

/-- JS `Map.set` (at most one entry per key). -/
def mapSet {α : Type} (m : List (String × α)) (k : String) (v : α) :
    List (String × α) :=
  (k, v) :: m.filter fun kv => kv.1 != k

/-- JS `Map.delete`. -/
def mapDel {α : Type} (m : List (String × α)) (k : String) :
    List (String × α) :=
  m.filter fun kv => kv.1 != k

/-- JS `Set.add` (idempotent). -/
def setInsert (a : String) (l : List String) : List String :=
  if l.contains a then l else a :: l

/-- The payload of a `Network.requestWillBeSent` event, as recorded in the
pending map.  `redirectResponse` models the presence of that field. -/
structure RequestInfo where
  url : String
  method : String := "GET"
  headers : List (String × String) := []
  deriving Repr, DecidableEq

structure RWBSEvent where
  requestId : String
  request : RequestInfo
  type : Option String := none
  redirectResponse : Bool := false
  deriving Repr, DecidableEq

/-- The event object passed to `_handleRequest` (a pending event spread
together with `resourceType` and `interceptId`). -/
structure HandleRequestEvent where
  requestId : String
  request : RequestInfo
  redirectResponse : Bool := false
  resourceType : Option String := none
  interceptId : Option String := none
  deriving Repr, DecidableEq

structure PausedEvent where
  networkId : String
  requestId : String
  resourceType : Option String := none
  request : RequestInfo
  deriving Repr, DecidableEq

structure RREvent where
  requestId : String
  response : Response
  deriving Repr, DecidableEq

structure LFEvent where
  requestId : String
  errorText : String
  deriving Repr, DecidableEq

/-- The mutable state of a `Network` instance.  `resolvedRWBS` / `resolvedRR`
are the sets of request ids whose `requestWillBeSent` / `responseReceived`
one-shot latches have been resolved. -/
structure NetState where
  pending : List (String × RWBSEvent) := []
  requests : List (String × StoredRequest) := []
  authentications : List String := []
  aborted : List String := []
  resolvedRWBS : List String := []
  resolvedRR : List String := []
  deriving Repr, DecidableEq

/-- Embedding of `_forgetRequest({requestId, interceptId}, keepPending)`. -/
def forgetRequest (s : NetState) (requestId : String)
    (interceptId : Option String) (keepPending : Bool) : NetState :=
  { s with
    requests := mapDel s.requests requestId
    authentications :=
      match interceptId with
      | some i => s.authentications.erase i
      | none => s.authentications
    pending := if keepPending then s.pending else mapDel s.pending requestId }

/-- Embedding of `_handleRequest`: archive a redirected predecessor into the
chain, store the new record, and (unless in service-worker mode) run the
decider.  Returns the new state and the decider's send attempts. -/
def handleRequest (ext : Extern) (icpt : Intercept) (ctx : SendCtx)
    (s : NetState) (ev : HandleRequestEvent) (serviceWorker : Bool) :
    NetState × List GuardedOutcome :=
  let redirectPrev :=
    if ev.redirectResponse then mapGet s.requests ev.requestId else none
  let (s1, chain) :=
    match redirectPrev with
    | some req =>
      (forgetRequest s req.requestId req.interceptId true,
        req.redirectChain ++ [req.url])
    | none => (s, [])
  let request : StoredRequest :=
    { url := ev.request.url, method := ev.request.method,
      headers := ev.request.headers, type := ev.resourceType,
      requestId := ev.requestId, interceptId := ev.interceptId,
      redirectChain := chain }
  let s2 := { s1 with requests := mapSet s1.requests ev.requestId request }
  if serviceWorker then (s2, [])
  else (s2, sendResponseResource ext icpt ctx request)

/-- Static configuration of a `Network` instance together with the external
world, as consumed by the handlers. -/
structure World where
  ext : Extern
  ctx : SendCtx := {}
  intercept : Option Intercept := none
  captureMockedServiceWorker : Bool := false
  authorization : Option Auth := none

/-- Embedding of `_handleRequestWillBeSent`.  Returns the new state and
whether the Interception Decider (`_handleRequest`) was invoked. -/
def handleRequestWillBeSent (w : World) (s : NetState) (ev : RWBSEvent) :
    NetState × Bool :=
  if strStartsWith ev.request.url "data:" then (s, false)
  else
    let (s1, invoked) :=
      match w.intercept with
      | some icpt =>
        let sp := { s with pending := mapSet s.pending ev.requestId ev }
        if w.captureMockedServiceWorker then
          ((handleRequest w.ext icpt w.ctx sp
              { requestId := ev.requestId, request := ev.request,
                redirectResponse := ev.redirectResponse,
                resourceType := ev.type,
                interceptId := some ev.requestId } true).1, true)
        else (sp, false)
      | none => (s, false)
    ({ s1 with resolvedRWBS := setInsert ev.requestId s1.resolvedRWBS }, invoked)

/-- JS guard `pending?.request.url === event.request.url &&
pending.request.method === event.request.method`. -/
def pendingMatches (p : Option RWBSEvent) (ev : PausedEvent) : Bool :=
  match p with
  | some pe => pe.request.url == ev.request.url
      && pe.request.method == ev.request.method
  | none => false

/-- Embedding of `_handleRequestPaused`: await the `requestWillBeSent` latch
(`none` while unresolved), pop the pending entry, and run `_handleRequest`
only when the pending entry matches by URL and method. -/
def handleRequestPaused (ext : Extern) (icpt : Intercept) (ctx : SendCtx)
    (s : NetState) (ev : PausedEvent) :
    Option (NetState × List GuardedOutcome) :=
  if s.resolvedRWBS.contains ev.networkId then
    let p := mapGet s.pending ev.networkId
    let s1 := { s with pending := mapDel s.pending ev.networkId }
    match p with
    | some pe =>
      if pe.request.url == ev.request.url
          && pe.request.method == ev.request.method then
        some (handleRequest ext icpt ctx s1
          { requestId := pe.requestId, request := pe.request,
            redirectResponse := pe.redirectResponse,
            resourceType := ev.resourceType,
            interceptId := some ev.requestId } false)
      else some (s1, [])
    | none => some (s1, [])
  else none

/-- Embedding of `_handleResponseReceived`: await the latch, attach the
response to the record if present, resolve the `responseReceived` latch. -/
def handleResponseReceived (s : NetState) (ev : RREvent) : Option NetState :=
  if s.resolvedRWBS.contains ev.requestId then
    some (match mapGet s.requests ev.requestId with
      | none => s
      | some req =>
        { s with
          requests := mapSet s.requests ev.requestId
            { req with response := some ev.response }
          resolvedRR := setInsert ev.requestId s.resolvedRR })
  else none

/-- Embedding of `_handleEventSourceMessageReceived`: await the latch, then
forget the record if present. -/
def handleEventSourceMessageReceived (s : NetState) (requestId : String) :
    Option NetState :=
  if s.resolvedRWBS.contains requestId then
    some (match mapGet s.requests requestId with
      | some req => forgetRequest s req.requestId req.interceptId false
      | none => s)
  else none

/-- Embedding of `_handleLoadingFinished`: await the `responseReceived` latch,
capture, then forget.  Returns the new state and what was saved (if anything). -/
def handleLoadingFinished (ext : Extern) (icpt : Intercept)
    (auth : Option Auth) (s : NetState) (requestId : String)
    (bufferResult : Except Unit (List Nat)) :
    Option (NetState × Option Saved) :=
  if s.resolvedRR.contains requestId then
    some (match mapGet s.requests requestId with
      | none => (s, none)
      | some req =>
        (forgetRequest s req.requestId req.interceptId false,
          saveResponseResource ext icpt auth req bufferResult))
  else none

/-- Embedding of `_handleLoadingFailed`: await the latch; on
`net::ERR_ABORTED` add the record's request id to the aborted set; in every
found case, forget the record. -/
def handleLoadingFailed (s : NetState) (ev : LFEvent) : Option NetState :=
  if s.resolvedRWBS.contains ev.requestId then
    some (match mapGet s.requests ev.requestId with
      | none => s
      | some req =>
        let s1 :=
          if ev.errorText == "net::ERR_ABORTED" then
            { s with aborted := setInsert req.requestId s.aborted }
          else s
        forgetRequest s1 req.requestId req.interceptId false)
  else none

/-- Embedding of `_handleAuthRequired`: cancel on a repeated challenge, provide
configured credentials once, otherwise respond Default; the response goes out
through the guarded send. -/
def handleAuthRequired (w : World) (s : NetState) (requestId : String) :
    NetState × GuardedOutcome :=
  let username := (w.authorization.map Auth.username).getD ""
  let password := (w.authorization.map Auth.password).getD ""
  let (response, s1) :=
    if s.authentications.contains requestId then ("CancelAuth", s)
    else if username ≠ "" || password ≠ "" then
      ("ProvideCredentials",
        { s with authentications := setInsert requestId s.authentications })
    else ("Default", s)
  (s1,
    sendGuarded w.ctx.abortedAtFirst w.ctx.sessionSend "Fetch.continueWithAuth"
      { requestId := some requestId,
        authChallengeResponse := some (response, username, password) })

/-- One inbound event (or an internal `_forgetRequest` call), for quantifying
over everything the Network class does. -/
inductive Op where
  | requestWillBeSent (ev : RWBSEvent)
  | requestPaused (ev : PausedEvent)
  | responseReceived (ev : RREvent)
  | eventSourceMessageReceived (requestId : String)
  | loadingFinished (requestId : String) (bufferResult : Except Unit (List Nat))
  | loadingFailed (ev : LFEvent)
  | authRequired (requestId : String)
  | forget (requestId : String) (interceptId : Option String) (keepPending : Bool)

/-- The state reached after an operation (a still-suspended handler, or one
whose registration requires an absent `intercept`, leaves the state as is). -/
def step (w : World) (op : Op) (s : NetState) : NetState :=
  match op with
  | .requestWillBeSent ev => (handleRequestWillBeSent w s ev).1
  | .requestPaused ev =>
    match w.intercept with
    | some icpt =>
      match handleRequestPaused w.ext icpt w.ctx s ev with
      | some (s1, _) => s1
      | none => s
    | none => s
  | .responseReceived ev => (handleResponseReceived s ev).getD s
  | .eventSourceMessageReceived rid =>
    (handleEventSourceMessageReceived s rid).getD s
  | .loadingFinished rid buf =>
    match w.intercept with
    | some icpt =>
      match handleLoadingFinished w.ext icpt w.authorization s rid buf with
      | some (s1, _) => s1
      | none => s
    | none => s
  | .loadingFailed ev => (handleLoadingFailed s ev).getD s
  | .authRequired rid => (handleAuthRequired w s rid).1
  | .forget rid iid keep => forgetRequest s rid iid keep

/-! ## The idle waiter (§4.F, `idle` and `_throwTimeoutError`) -/

/-- The fixed part of the idle-timeout diagnostic. -/
def idleTimeoutBase : String := "Timed out waiting for network requests to idle."

/-- Modelled from the spec: the rejection message of the external `waitFor`
helper (utils.js, not under src) when the hard ceiling expires; the core relies
only on it starting with the word Timeout. -/
def waitForTimeoutMessage : String := "Timeout exceeded while waiting"

/-- Embedding of `_throwTimeoutError`: the active-request list is appended to
the message only when debug logging is enabled. -/
def throwTimeoutErrorMessage (debugOn : Bool) (msg : String)
    (urls : List String) : String :=
  if debugOn then
    msg ++ "\n\n  " ++ joinWith "\n  - " ("Active requests:" :: urls) ++ "\n"
  else msg

/-- Embedding of `idle`, abstracted over the observed scenario: a session
closed-reason surfaces from the polled predicate; a hard-ceiling expiry
surfaces as the waitFor timeout rejection, rewritten into the diagnostic
error; otherwise the wait resolves.  `inflightUrls` are the URLs of the
filtered in-flight requests at failure time. -/
def idle (closedReason : Option String) (timesOut : Bool) (debugOn : Bool)
    (inflightUrls : List String) : Except String Unit :=
  let waitResult : Except String Unit :=
    match closedReason with
    | some reason => .error ("Network error: " ++ reason)
    | none => if timesOut then .error waitForTimeoutMessage else .ok ()
  match waitResult with
  | .ok _ => .ok ()
  | .error m =>
    if strStartsWith m "Timeout" then
      .error (throwTimeoutErrorMessage debugOn idleTimeoutBase inflightUrls)
    else .error m

/-! ## Helper lemmas about the string model -/

theorem leadsWith_append_self (l t : List Char) : leadsWith l (l ++ t) = true := by
  induction l with
  | nil => rfl
  | cons a as ih => simp [leadsWith, ih]

theorem leadsWith_self (l : List Char) : leadsWith l l = true := by
  have h := leadsWith_append_self l []
  rwa [List.append_nil] at h

theorem occursIn_of_leadsWith (pat s : List Char) (h : leadsWith pat s = true) :
    occursIn pat s = true := by
  cases s with
  | nil => simpa [occursIn] using h
  | cons c rest => simp [occursIn, h]

theorem occursIn_append_left (pat pre s : List Char)
    (h : occursIn pat s = true) : occursIn pat (pre ++ s) = true := by
  induction pre with
  | nil => simpa using h
  | cons a as ih => simp [occursIn, ih]

theorem leadsWith_append_right (pat s t : List Char)
    (h : leadsWith pat s = true) : leadsWith pat (s ++ t) = true := by
  induction pat generalizing s with
  | nil => rfl
  | cons a as ih =>
    cases s with
    | nil => simp [leadsWith] at h
    | cons b bs =>
      simp only [leadsWith, Bool.and_eq_true] at h
      simp only [List.cons_append, leadsWith, Bool.and_eq_true]
      exact ⟨h.1, ih bs h.2⟩

theorem occursIn_append_right (pat s t : List Char)
    (h : occursIn pat s = true) : occursIn pat (s ++ t) = true := by
  induction s with
  | nil =>
    cases pat with
    | nil => exact occursIn_of_leadsWith _ _ rfl
    | cons a as => simp [occursIn, leadsWith] at h
  | cons c rest ih =>
    simp only [occursIn, Bool.or_eq_true] at h
    simp only [List.cons_append, occursIn, Bool.or_eq_true]
    cases h with
    | inl h1 =>
      have h2 := leadsWith_append_right pat (c :: rest) t h1
      simpa using Or.inl h2
    | inr h2 => exact Or.inr (ih h2)

theorem string_data_append (x y : String) : (x ++ y).data = x.data ++ y.data := rfl

theorem strIncludes_joinWith (sep : String) (l : List String) (u : String)
    (h : u ∈ l) : strIncludes (joinWith sep l) u = true := by
  induction l with
  | nil => simp at h
  | cons a rest ih =>
    rcases List.mem_cons.mp h with h1 | h2
    · subst h1
      cases rest with
      | nil => exact occursIn_of_leadsWith _ _ (leadsWith_self u.data)
      | cons b rest2 =>
        show occursIn u.data (u ++ sep ++ joinWith sep (b :: rest2)).data = true
        rw [string_data_append, string_data_append, List.append_assoc]
        exact occursIn_of_leadsWith _ _ (leadsWith_append_self u.data _)
    · cases rest with
      | nil => simp at h2
      | cons b rest2 =>
        show occursIn u.data (a ++ sep ++ joinWith sep (b :: rest2)).data = true
        rw [string_data_append]
        exact occursIn_append_left _ _ _ (ih h2)

theorem mem_setInsert_of_mem (a x : String) (l : List String) (h : x ∈ l) :
    x ∈ setInsert a l := by
  unfold setInsert
  split
  · exact h
  · exact List.mem_cons_of_mem a h

theorem mem_setInsert_self (a : String) (l : List String) : a ∈ setInsert a l := by
  unfold setInsert
  split
  · next h => exact List.elem_iff.mp h
  · exact List.mem_cons_self a l

/-! ## Concrete fixtures used by counterexamples and witnesses -/

/-- Externals where hostname matching fires iff the hostname list is nonempty,
and everything else is the identity-style stub. -/
def extHM : Extern :=
  { hostnameMatches := fun pats _ => !pats.isEmpty,
    normalizeURL := id,
    mimeLookup := fun _ => none,
    urlOriginPath := fun u => some u,
    base64 := fun s => s,
    directFetch := fun _ _ => .ok [9, 9] }

/-- A cached resource that is provided but not root. -/
def rProvided : Resource := { provided := true, content := "abc" }

/-- A plain request record with an intercept id. -/
def reqBasic : StoredRequest :=
  { url := "https://ex/", requestId := "r1", interceptId := some "i1" }

/-! ## C7 — the guarded send -/

/-- Helper naming the truthiness of `params.requestId` (JS `if (params.requestId)`). -/
def requestIdTruthy (params : FetchParams) : Bool :=
  match params.requestId with
  | some rid => rid != ""
  | none => false

/-- C7: an outbound call through the guarded send whose params carry a (truthy)
requestId in the Aborted set throws the aborted sentinel without forwarding to
the session; otherwise the command is forwarded unchanged to session.send. -/
theorem C7_guarded_send (aborted : String → Bool)
    (sessionSend : String → FetchParams → SendResult)
    (method : String) (params : FetchParams) :
    (∀ rid, params.requestId = some rid → rid ≠ "" → aborted rid = true →
      sendGuarded aborted sessionSend method params =
        GuardedOutcome.thrown ABORTED_MESSAGE)
    ∧ ((∀ rid, params.requestId = some rid → rid = "" ∨ aborted rid = false) →
      sendGuarded aborted sessionSend method params =
        GuardedOutcome.forwarded method params (sessionSend method params)) := by
  constructor
  · intro rid h hne hab
    unfold sendGuarded
    rw [h]
    simp [hne, hab]
  · intro h
    unfold sendGuarded
    cases hp : params.requestId with
    | none => rfl
    | some rid =>
      rcases h rid hp with h1 | h2
      · simp [h1]
      · by_cases he : rid = ""
        · simp [he]
        · simp [he, h2]

/-- Witness for C7 at concrete inputs: an aborted requestId throws the sentinel. -/
theorem C7_guarded_send_witness :
    sendGuarded (fun _ => true) (fun _ _ => SendResult.ok) "Fetch.continueRequest"
        { requestId := some "i1" } = GuardedOutcome.thrown ABORTED_MESSAGE :=
  (C7_guarded_send (fun _ => true) (fun _ _ => SendResult.ok)
    "Fetch.continueRequest" { requestId := some "i1" }).1 "i1" rfl
    (by decide) rfl

/-! ## C2 — when the decider aborts a request -/

/-- C2 (amended): the decider attempts `Fetch.failRequest` with errorReason
Aborted exactly when the hostname matches the disallowed list and the cached
resource for the origin URL, if any, is not a root resource — a cached non-root
resource does not prevent the abort. -/
theorem C2_fail_aborted_iff (ext : Extern) (icpt : Intercept)
    (request : StoredRequest) :
    ((decideCommand ext icpt request).1 = "Fetch.failRequest"
      ∧ (decideCommand ext icpt request).2.errorReason = some "Aborted")
    ↔ (!(rootOf (icpt.getResource (originURL ext request)))
        && ext.hostnameMatches icpt.disallowedHostnames (originURL ext request))
      = true := by
  simp only [decideCommand]
  split
  · next h => simp [h]
  · next h =>
    split
    · split
      · simp [h]
      · simp [h]
    · simp [h]

/-- Counterexample to C2 as stated: with a cached resource present (provided,
non-root) and a disallowed hostname, the decider still chooses failRequest
Aborted, although the claim requires the absence of any cached resource. -/
theorem C2_counterexample :
    (let icpt : Intercept :=
      { getResource := fun _ => some rProvided,
        disallowedHostnames := ["ads"] }
     (icpt.getResource (originURL extHM reqBasic)).isSome = true
      ∧ (decideCommand extHM icpt reqBasic).1 = "Fetch.failRequest"
      ∧ (decideCommand extHM icpt reqBasic).2.errorReason = some "Aborted") := by
  exact ⟨rfl, rfl, rfl⟩

/-! ## Per-handler state-preservation lemmas -/

theorem forgetRequest_preserves (s : NetState) (rid : String)
    (iid : Option String) (keep : Bool) :
    (forgetRequest s rid iid keep).aborted = s.aborted
    ∧ (forgetRequest s rid iid keep).resolvedRWBS = s.resolvedRWBS :=
  ⟨rfl, rfl⟩

theorem handleRequest_preserves (ext : Extern) (icpt : Intercept) (ctx : SendCtx)
    (s : NetState) (ev : HandleRequestEvent) (sw : Bool) :
    (handleRequest ext icpt ctx s ev sw).1.aborted = s.aborted
    ∧ (handleRequest ext icpt ctx s ev sw).1.resolvedRWBS = s.resolvedRWBS := by
  unfold handleRequest
  cases h : (if ev.redirectResponse then mapGet s.requests ev.requestId else none) <;>
    cases sw <;> simp [h, forgetRequest]

theorem handleRequestPaused_preserves (ext : Extern) (icpt : Intercept)
    (ctx : SendCtx) (s : NetState) (ev : PausedEvent)
    (res : NetState × List GuardedOutcome)
    (h : handleRequestPaused ext icpt ctx s ev = some res) :
    res.1.aborted = s.aborted ∧ res.1.resolvedRWBS = s.resolvedRWBS := by
  unfold handleRequestPaused at h
  split at h
  · cases hp : mapGet s.pending ev.networkId with
    | none =>
      simp only [hp, Option.some.injEq] at h
      subst h
      exact ⟨rfl, rfl⟩
    | some pe =>
      simp only [hp] at h
      split at h
      · simp only [Option.some.injEq] at h
        subst h
        exact handleRequest_preserves ext icpt ctx _ _ false
      · simp only [Option.some.injEq] at h
        subst h
        exact ⟨rfl, rfl⟩
  · exact absurd h (by simp)

theorem handleResponseReceived_preserves (s : NetState) (ev : RREvent)
    (s1 : NetState) (h : handleResponseReceived s ev = some s1) :
    s1.aborted = s.aborted ∧ s1.resolvedRWBS = s.resolvedRWBS := by
  unfold handleResponseReceived at h
  split at h
  · cases hp : mapGet s.requests ev.requestId <;>
      rw [hp] at h <;> simp only [Option.some.injEq] at h <;> subst h <;>
      exact ⟨rfl, rfl⟩
  · exact absurd h (by simp)

theorem handleEventSourceMessageReceived_preserves (s : NetState)
    (rid : String) (s1 : NetState)
    (h : handleEventSourceMessageReceived s rid = some s1) :
    s1.aborted = s.aborted ∧ s1.resolvedRWBS = s.resolvedRWBS := by
  unfold handleEventSourceMessageReceived at h
  split at h
  · cases hp : mapGet s.requests rid <;>
      rw [hp] at h <;> simp only [Option.some.injEq] at h <;> subst h <;>
      exact ⟨rfl, rfl⟩
  · exact absurd h (by simp)

theorem handleLoadingFinished_preserves (ext : Extern) (icpt : Intercept)
    (auth : Option Auth) (s : NetState) (rid : String)
    (buf : Except Unit (List Nat)) (res : NetState × Option Saved)
    (h : handleLoadingFinished ext icpt auth s rid buf = some res) :
    res.1.aborted = s.aborted ∧ res.1.resolvedRWBS = s.resolvedRWBS := by
  unfold handleLoadingFinished at h
  split at h
  · cases hp : mapGet s.requests rid <;>
      rw [hp] at h <;> simp only [Option.some.injEq] at h <;> subst h <;>
      exact ⟨rfl, rfl⟩
  · exact absurd h (by simp)

theorem handleLoadingFailed_mono (s : NetState) (ev : LFEvent) (s1 : NetState)
    (h : handleLoadingFailed s ev = some s1) :
    (∀ x, x ∈ s.aborted → x ∈ s1.aborted)
    ∧ s1.resolvedRWBS = s.resolvedRWBS := by
  unfold handleLoadingFailed at h
  split at h
  · cases hp : mapGet s.requests ev.requestId with
    | none =>
      rw [hp] at h
      simp only [Option.some.injEq] at h
      subst h
      exact ⟨fun x hx => hx, rfl⟩
    | some req =>
      rw [hp] at h
      simp only [Option.some.injEq] at h
      subst h
      constructor
      · intro x hx
        split
        · exact mem_setInsert_of_mem _ _ _ hx
        · exact hx
      · split <;> rfl
  · exact absurd h (by simp)

theorem handleAuthRequired_preserves (w : World) (s : NetState) (rid : String) :
    (handleAuthRequired w s rid).1.aborted = s.aborted
    ∧ (handleAuthRequired w s rid).1.resolvedRWBS = s.resolvedRWBS := by
  unfold handleAuthRequired
  split
  · exact ⟨rfl, rfl⟩
  · dsimp only
    split <;> exact ⟨rfl, rfl⟩

theorem handleRequestWillBeSent_aborted (w : World) (s : NetState)
    (ev : RWBSEvent) : (handleRequestWillBeSent w s ev).1.aborted = s.aborted := by
  unfold handleRequestWillBeSent
  split
  · rfl
  · cases hi : w.intercept with
    | none => rfl
    | some icpt =>
      cases hsw : w.captureMockedServiceWorker <;> simp [hi, hsw]
      exact (handleRequest_preserves w.ext icpt w.ctx _ _ true).1

theorem handleRequestWillBeSent_resolved (w : World) (s : NetState)
    (ev : RWBSEvent) :
    (strStartsWith ev.request.url "data:" = true
      ∧ (handleRequestWillBeSent w s ev).1 = s)
    ∨ (strStartsWith ev.request.url "data:" = false
      ∧ (handleRequestWillBeSent w s ev).1.resolvedRWBS
          = setInsert ev.requestId s.resolvedRWBS) := by
  unfold handleRequestWillBeSent
  cases hd : strStartsWith ev.request.url "data:" with
  | true => exact Or.inl ⟨rfl, rfl⟩
  | false =>
    refine Or.inr ⟨rfl, ?_⟩
    cases hi : w.intercept with
    | none => rfl
    | some icpt =>
      cases hsw : w.captureMockedServiceWorker <;> simp [hi, hsw]
      rw [(handleRequest_preserves w.ext icpt w.ctx _ _ true).2]

theorem mem_setInsert_elim (a x : String) (l : List String)
    (h : x ∈ setInsert a l) : x = a ∨ x ∈ l := by
  unfold setInsert at h
  split at h
  · exact Or.inr h
  · exact List.mem_cons.mp h

/-! ## C6 — the Aborted set only grows -/

/-- C6: a requestId is added to the Aborted set when Network.loadingFailed
arrives with errorText net::ERR_ABORTED (for a known request), and no
operation of the Network class — `_forgetRequest` included — ever removes an
element from the Aborted set. -/
theorem C6_aborted_set_monotone (w : World) (op : Op) (s : NetState) :
    (∀ x, x ∈ s.aborted → x ∈ (step w op s).aborted)
    ∧ (∀ rid iid keep, (forgetRequest s rid iid keep).aborted = s.aborted)
    ∧ (∀ ev req, op = Op.loadingFailed ev →
        ev.errorText = "net::ERR_ABORTED" →
        s.resolvedRWBS.contains ev.requestId = true →
        mapGet s.requests ev.requestId = some req →
        req.requestId ∈ (step w op s).aborted) := by
  refine ⟨?_, fun _ _ _ => rfl, ?_⟩
  · intro x hx
    cases op with
    | requestWillBeSent ev =>
      show x ∈ (handleRequestWillBeSent w s ev).1.aborted
      rw [handleRequestWillBeSent_aborted]
      exact hx
    | requestPaused ev =>
      cases hi : w.intercept with
      | none => simpa [step, hi] using hx
      | some icpt =>
        cases hr : handleRequestPaused w.ext icpt w.ctx s ev with
        | none => simpa [step, hi, hr] using hx
        | some res =>
          have hp := (handleRequestPaused_preserves w.ext icpt w.ctx s ev res hr).1
          simpa [step, hi, hr, hp] using hx
    | responseReceived ev =>
      cases hr : handleResponseReceived s ev with
      | none => simpa [step, hr] using hx
      | some s1 =>
        have hp := (handleResponseReceived_preserves s ev s1 hr).1
        simpa [step, hr, hp] using hx
    | eventSourceMessageReceived rid =>
      cases hr : handleEventSourceMessageReceived s rid with
      | none => simpa [step, hr] using hx
      | some s1 =>
        have hp := (handleEventSourceMessageReceived_preserves s rid s1 hr).1
        simpa [step, hr, hp] using hx
    | loadingFinished rid buf =>
      cases hi : w.intercept with
      | none => simpa [step, hi] using hx
      | some icpt =>
        cases hr : handleLoadingFinished w.ext icpt w.authorization s rid buf with
        | none => simpa [step, hi, hr] using hx
        | some res =>
          have hp := (handleLoadingFinished_preserves w.ext icpt
            w.authorization s rid buf res hr).1
          simpa [step, hi, hr, hp] using hx
    | loadingFailed ev =>
      cases hr : handleLoadingFailed s ev with
      | none => simpa [step, hr] using hx
      | some s1 =>
        have hp := (handleLoadingFailed_mono s ev s1 hr).1 x hx
        simpa [step, hr] using hp
    | authRequired rid =>
      have hp := (handleAuthRequired_preserves w s rid).1
      simpa [step, hp] using hx
    | forget rid iid keep => simpa [step, forgetRequest] using hx
  · intro ev req hop he hres hmap
    subst hop
    show req.requestId ∈ ((handleLoadingFailed s ev).getD s).aborted
    simp only [handleLoadingFailed, hres, hmap, he, beq_self_eq_true, if_true,
      Option.getD_some, forgetRequest]
    exact mem_setInsert_self req.requestId s.aborted

/-- A World fixture with the stub externals. -/
def wHM : World := { ext := extHM }

/-- A state fixture holding one known request and one already-aborted id. -/
def sAb : NetState :=
  { requests := [("r1", reqBasic)], resolvedRWBS := ["r1"], aborted := ["r0"] }

/-- A loadingFailed event reporting a browser abort. -/
def lfAborted : LFEvent := { requestId := "r1", errorText := "net::ERR_ABORTED" }

/-- Witness for C6: after an ERR_ABORTED loadingFailed, the old element is
still in the Aborted set and the failed request's id has been added. -/
theorem C6_aborted_set_monotone_witness :
    "r0" ∈ (step wHM (Op.loadingFailed lfAborted) sAb).aborted
    ∧ "r1" ∈ (step wHM (Op.loadingFailed lfAborted) sAb).aborted :=
  ⟨(C6_aborted_set_monotone wHM _ sAb).1 "r0" (by decide),
    (C6_aborted_set_monotone wHM _ sAb).2.2 _ reqBasic rfl rfl (by decide) rfl⟩

/-! ## C10 — data: URLs are skipped entirely -/

/-- C10: a requestWillBeSent whose URL starts with data: leaves the state
unchanged (no pending entry, no latch resolution) and never invokes the
Interception Decider; the requestWillBeSent latch of an id is resolved only by
a non-data requestWillBeSent for that id; and every handler that awaits that
latch stays suspended (returns none) while it is unresolved. -/
theorem C10_data_url_skip (w : World) (s : NetState) (ev : RWBSEvent)
    (hdata : strStartsWith ev.request.url "data:" = true) :
    handleRequestWillBeSent w s ev = (s, false)
    ∧ (∀ op rid, rid ∈ (step w op s).resolvedRWBS → rid ∈ s.resolvedRWBS
        ∨ ∃ ev2, op = Op.requestWillBeSent ev2 ∧ ev2.requestId = rid
            ∧ strStartsWith ev2.request.url "data:" = false)
    ∧ (∀ ext icpt ctx pev, s.resolvedRWBS.contains pev.networkId = false →
        handleRequestPaused ext icpt ctx s pev = none)
    ∧ (∀ rev : RREvent, s.resolvedRWBS.contains rev.requestId = false →
        handleResponseReceived s rev = none)
    ∧ (∀ rid, s.resolvedRWBS.contains rid = false →
        handleEventSourceMessageReceived s rid = none)
    ∧ (∀ lev : LFEvent, s.resolvedRWBS.contains lev.requestId = false →
        handleLoadingFailed s lev = none) := by
  refine ⟨by simp [handleRequestWillBeSent, hdata], ?_, ?_, ?_, ?_, ?_⟩
  · intro op rid hmem
    cases op with
    | requestWillBeSent ev2 =>
      rcases handleRequestWillBeSent_resolved w s ev2 with ⟨hd, hs⟩ | ⟨hd, hs⟩
      · left
        have : (step w (Op.requestWillBeSent ev2) s) =
            (handleRequestWillBeSent w s ev2).1 := rfl
        rw [this, hs] at hmem
        exact hmem
      · have : (step w (Op.requestWillBeSent ev2) s) =
            (handleRequestWillBeSent w s ev2).1 := rfl
        rw [this, hs] at hmem
        rcases mem_setInsert_elim _ _ _ hmem with h1 | h2
        · exact Or.inr ⟨ev2, rfl, h1.symm, hd⟩
        · exact Or.inl h2
    | requestPaused pev =>
      cases hi : w.intercept with
      | none => simpa [step, hi] using hmem
      | some icpt =>
        cases hr : handleRequestPaused w.ext icpt w.ctx s pev with
        | none => simpa [step, hi, hr] using hmem
        | some res =>
          have hp := (handleRequestPaused_preserves w.ext icpt w.ctx s pev res hr).2
          exact Or.inl (by simpa [step, hi, hr, hp] using hmem)
    | responseReceived rev =>
      cases hr : handleResponseReceived s rev with
      | none => simpa [step, hr] using hmem
      | some s1 =>
        have hp := (handleResponseReceived_preserves s rev s1 hr).2
        exact Or.inl (by simpa [step, hr, hp] using hmem)
    | eventSourceMessageReceived rid2 =>
      cases hr : handleEventSourceMessageReceived s rid2 with
      | none => simpa [step, hr] using hmem
      | some s1 =>
        have hp := (handleEventSourceMessageReceived_preserves s rid2 s1 hr).2
        exact Or.inl (by simpa [step, hr, hp] using hmem)
    | loadingFinished rid2 buf =>
      cases hi : w.intercept with
      | none => simpa [step, hi] using hmem
      | some icpt =>
        cases hr : handleLoadingFinished w.ext icpt w.authorization s rid2 buf with
        | none => simpa [step, hi, hr] using hmem
        | some res =>
          have hp := (handleLoadingFinished_preserves w.ext icpt
            w.authorization s rid2 buf res hr).2
          exact Or.inl (by simpa [step, hi, hr, hp] using hmem)
    | loadingFailed lev =>
      cases hr : handleLoadingFailed s lev with
      | none => simpa [step, hr] using hmem
      | some s1 =>
        have hp := (handleLoadingFailed_mono s lev s1 hr).2
        exact Or.inl (by simpa [step, hr, hp] using hmem)
    | authRequired rid2 =>
      have hp := (handleAuthRequired_preserves w s rid2).2
      exact Or.inl (by simpa [step, hp] using hmem)
    | forget rid2 iid keep => exact Or.inl (by simpa [step, forgetRequest] using hmem)
  · intro ext icpt ctx pev hc
    unfold handleRequestPaused
    rw [hc]
    simp
  · intro rev hc
    unfold handleResponseReceived
    rw [hc]
    simp
  · intro rid hc
    unfold handleEventSourceMessageReceived
    rw [hc]
    simp
  · intro lev hc
    unfold handleLoadingFailed
    rw [hc]
    simp

/-- A requestWillBeSent event for a data: URL. -/
def evData : RWBSEvent := { requestId := "r1", request := { url := "data:text/plain,x" } }

/-- Witness for C10: a concrete data: URL event is a complete no-op. -/
theorem C10_data_url_skip_witness :
    handleRequestWillBeSent wHM {} evData = ({}, false) :=
  (C10_data_url_skip wHM {} evData (by decide)).1

/-! ## Further fixtures for the capture path -/

/-- A cached resource that is neither root nor provided. -/
def rPlain : Resource := {}

def respCss : Response :=
  { status := 200, mimeType := some "text/css", headers := [("a", "b\nc")] }

def reqCss : StoredRequest :=
  { url := "https://ex/a.css", requestId := "r1", response := some respCss }

def icptProv : Intercept :=
  { getResource := fun _ => some rProvided, allowedHostnames := ["x"] }

def icptPlainNC : Intercept :=
  { getResource := fun _ => some rPlain, allowedHostnames := ["x"],
    enableJavaScript := true }

def icptPlainDC : Intercept :=
  { getResource := fun _ => some rPlain, allowedHostnames := ["x"],
    disableCache := true, enableJavaScript := true }

def icptCap : Intercept :=
  { getResource := fun _ => none, allowedHostnames := ["x"],
    enableJavaScript := true }

def authPwOnly : Auth := { username := "", password := "secret" }

/-- An intercept with JavaScript capture off (the default) and no cached
resources. -/
def icptNoJs : Intercept :=
  { getResource := fun _ => none, allowedHostnames := ["x"] }

/-- A response whose own MIME type is a font, on a URL from which no MIME can
be inferred (the spec's scenario S4 shape). -/
def respFont : Response := { status := 200, mimeType := some "font/woff2" }

def reqFont : StoredRequest :=
  { url := "https://ex/f.bin", requestId := "r1", type := some "Font",
    response := some respFont }

/-! ## C4 — early exit of the capturer on cached resources -/

/-- Modelled from the spec words: the spec allows the capture branch to run for
a cached resource when it is neither root nor provided and caching is enabled,
reading caching-is-enabled as the disableCache option being unset (the reading
the same spec uses in its decision table). -/
def specCapturesWhenCached (r : Resource) (disableCache : Bool) : Bool :=
  !r.root && !r.provided && !disableCache

/-- Counterexample to C4 as stated: a cached resource that is neither root nor
provided with caching enabled (disableCache unset).  The spec-worded condition
says the capture branch runs; the code early-exits without capture and re-saves
the cached resource. -/
theorem C4_counterexample :
    capturePathTaken (icptPlainNC.getResource (originURL extHM reqCss))
        icptPlainNC.disableCache = false
    ∧ specCapturesWhenCached rPlain icptPlainNC.disableCache = true
    ∧ saveResponseResource extHM icptPlainNC none reqCss (Except.ok [1])
        = some (Saved.cached rPlain) :=
  ⟨rfl, rfl, rfl⟩

/-- C4 (amended): on loading-finished with a cached resource for the origin
URL, the capture branch runs iff the cached resource is neither root nor
provided and the disableCache option is set; when it does not run, the
capturer early-exits without capturing anything and re-saves the cached
resource. -/
theorem C4_cached_early_exit (ext : Extern) (icpt : Intercept)
    (auth : Option Auth) (request : StoredRequest)
    (buf : Except Unit (List Nat)) (r : Resource)
    (h : icpt.getResource (originURL ext request) = some r) :
    capturePathTaken (icpt.getResource (originURL ext request)) icpt.disableCache
      = (!r.root && !r.provided && icpt.disableCache)
    ∧ (capturePathTaken (icpt.getResource (originURL ext request))
          icpt.disableCache = false →
        saveResponseResource ext icpt auth request buf = some (Saved.cached r)) := by
  constructor
  · rw [h]
    rfl
  · intro hcp
    have hcp2 : capturePathTaken (some r) icpt.disableCache = false := by
      rwa [h] at hcp
    simp [saveResponseResource, h, hcp2]

/-- Witness for C4: a provided cached resource blocks the capture branch and is
re-saved as is. -/
theorem C4_cached_early_exit_witness :
    saveResponseResource extHM icptProv none reqCss (Except.ok [1])
      = some (Saved.cached rProvided) :=
  (C4_cached_early_exit extHM icptProv none reqCss (Except.ok [1])
    rProvided rfl).2 rfl

/-! ## C9 — what reaches saveResource when a cached resource exists -/

/-- Counterexample to C9 as stated: cached non-root non-provided resource with
disableCache set; the capture branch completes, and saveResource receives the
newly captured resource, not the cached one the claim promises. -/
theorem C9_counterexample :
    icptPlainDC.getResource (originURL extHM reqCss) = some rPlain
    ∧ isCapturedSave (saveResponseResource extHM icptPlainDC none reqCss
        (Except.ok [1, 2])) = true
    ∧ saveResponseResource extHM icptPlainDC none reqCss (Except.ok [1, 2])
        ≠ some (Saved.cached rPlain) :=
  ⟨rfl, rfl, by decide⟩

/-- C9 (amended): on loading-finished with a cached resource r for the origin
URL: when the capture branch is skipped (r root or provided, or caching not
disabled) saveResource is invoked with r; when the branch runs, a filter early
return saves nothing, a capture error re-saves r, and a completed capture saves
the newly created resource instead of r. -/
theorem C9_cached_resave (ext : Extern) (icpt : Intercept) (auth : Option Auth)
    (request : StoredRequest) (buf : Except Unit (List Nat)) (r : Resource)
    (h : icpt.getResource (originURL ext request) = some r) :
    (capturePathTaken (some r) icpt.disableCache = false →
      saveResponseResource ext icpt auth request buf = some (Saved.cached r))
    ∧ (capturePathTaken (some r) icpt.disableCache = true →
        (captureAttempt ext icpt auth request (originURL ext request) buf
            = CaptureStep.skip →
          saveResponseResource ext icpt auth request buf = none)
        ∧ (captureAttempt ext icpt auth request (originURL ext request) buf
            = CaptureStep.errored →
          saveResponseResource ext icpt auth request buf = some (Saved.cached r))
        ∧ (∀ c, captureAttempt ext icpt auth request (originURL ext request) buf
            = CaptureStep.made c →
          saveResponseResource ext icpt auth request buf
            = some (Saved.captured c))) := by
  constructor
  · intro hcp
    simp [saveResponseResource, h, hcp]
  · intro hcp
    refine ⟨?_, ?_, ?_⟩
    · intro hca
      simp [saveResponseResource, h, hcp, hca]
    · intro hca
      simp [saveResponseResource, h, hcp, hca]
    · intro c hca
      simp [saveResponseResource, h, hcp, hca]

/-- Witness for C9: a cached provided resource is re-saved on loading-finished. -/
theorem C9_cached_resave_witness :
    saveResponseResource extHM icptProv none reqCss (Except.ok [2])
      = some (Saved.cached rProvided) :=
  (C9_cached_resave extHM icptProv none reqCss (Except.ok [2])
    rProvided rfl).1 rfl

/-! ## C3 — the capture filters -/

theorem captureAttempt_skip_of_filters (ext : Extern) (icpt : Intercept)
    (auth : Option Auth) (request : StoredRequest) (url : String)
    (resp : Response) (b : List Nat)
    (hresp : request.response = some resp)
    (hcond : b.length = 0 ∨ b.length > MAX_RESOURCE_SIZE
      ∨ ALLOWED_STATUSES.contains resp.status = false
      ∨ (icpt.enableJavaScript = false ∧ typeAllowed request.type = false)) :
    captureAttempt ext icpt auth request url (Except.ok b) = CaptureStep.skip := by
  unfold captureAttempt
  rw [hresp]
  dsimp only
  split
  · rfl
  · split
    · rfl
    · next h0 =>
      split
      · rfl
      · next h1 =>
        split
        · rfl
        · next h2 =>
          split
          · rfl
          · next h3 =>
            exfalso
            rcases hcond with hc | hc | hc | ⟨hjs, hta⟩
            · simp [hc] at h0
            · exact h1 hc
            · rw [hc] at h2
              exact h2 rfl
            · simp [hjs, hta] at h3

/-- C3: a response whose body is empty or exceeds 25 MiB, whose status is
outside the allowed set, or — when JavaScript capture is disabled — whose
resource type is outside the allowed set, never results in saving a resource
captured from that response. -/
theorem C3_capture_filters (ext : Extern) (icpt : Intercept) (auth : Option Auth)
    (request : StoredRequest) (resp : Response) (b : List Nat)
    (hresp : request.response = some resp)
    (hcond : b.length = 0 ∨ b.length > MAX_RESOURCE_SIZE
      ∨ ALLOWED_STATUSES.contains resp.status = false
      ∨ (icpt.enableJavaScript = false ∧ typeAllowed request.type = false)) :
    isCapturedSave (saveResponseResource ext icpt auth request (Except.ok b))
      = false := by
  unfold saveResponseResource
  dsimp only
  split
  · rw [captureAttempt_skip_of_filters ext icpt auth request _ resp b hresp hcond]
    rfl
  · cases hg : icpt.getResource (originURL ext request) <;> simp [hg, isCapturedSave]

/-- Witness for C3: a disallowed status (500) yields no captured save. -/
theorem C3_capture_filters_witness :
    isCapturedSave (saveResponseResource extHM icptCap none
      { url := "https://ex/", requestId := "r1", response := some { status := 500 } }
      (Except.ok [1])) = false :=
  C3_capture_filters extHM icptCap none
    { url := "https://ex/", requestId := "r1", response := some { status := 500 } }
    { status := 500 } [1] rfl (Or.inr (Or.inr (Or.inl rfl)))

/-! ## C8 — font responses are re-fetched directly -/

/-- Counterexample to C8 as stated: authorization credentials are configured
(a password), yet the direct request carries no Authorization header, because
the code keys the injection on a non-empty username alone. -/
theorem C8_counterexample :
    (some authPwOnly : Option Auth).isSome = true
    ∧ authPwOnly.password ≠ ""
    ∧ ((makeDirectRequestHeaders (fun s => s) (some authPwOnly) reqBasic).any
        fun kv => kv.1 == "Authorization") = false :=
  ⟨rfl, by decide, rfl⟩

/-- C8 (amended): whenever the capture filters pass and the font trigger holds
— the effective MIME type contains "font", or the MIME inferred from the URL
path does — the captured content is the body of the direct HTTP re-fetch (the
browser-provided body is discarded); the direct request carries a Basic
Authorization header exactly when a non-empty username is configured, and no
header is injected for a password-only or absent authorization. -/
theorem C8_font_direct_fetch (ext : Extern) (icpt : Intercept)
    (auth : Option Auth) (request : StoredRequest) (url : String)
    (resp : Response) (b : List Nat) (path : String)
    (hresp : request.response = some resp)
    (hhost : ext.hostnameMatches icpt.allowedHostnames url = true)
    (hlen0 : (b.length == 0) = false)
    (hlen : ¬b.length > MAX_RESOURCE_SIZE)
    (hst : ALLOWED_STATUSES.contains resp.status = true)
    (htype : (!icpt.enableJavaScript && !typeAllowed request.type) = false)
    (hurl : ext.urlOriginPath url = some path)
    (hfont : isFontMime (effectiveMime resp.mimeType (ext.mimeLookup path))
        (ext.mimeLookup path) = true) :
    capturedContent (captureAttempt ext icpt auth request url (Except.ok b))
      = exceptBody (makeDirectRequest ext auth request)
    ∧ (∀ a : Auth, a.username ≠ "" →
        makeDirectRequestHeaders ext.base64 (some a) request =
          (request.headers.filter fun kv => kv.1 != "Authorization")
            ++ [("Authorization",
                  "Basic " ++ ext.base64 (a.username ++ ":" ++ a.password))])
    ∧ (∀ a : Auth, a.username = "" →
        makeDirectRequestHeaders ext.base64 (some a) request = request.headers)
    ∧ makeDirectRequestHeaders ext.base64 none request = request.headers := by
  refine ⟨?_, ?_, ?_, rfl⟩
  · unfold captureAttempt
    rw [hresp]
    dsimp only
    rw [hhost]
    simp only [Bool.not_true, Bool.false_eq_true, if_false, hlen0, hlen, hst,
      htype, hurl]
    rw [if_pos hfont]
    cases hd : makeDirectRequest ext auth request <;>
      simp [hd, capturedContent, exceptBody]
  · intro a ha
    simp [makeDirectRequestHeaders, ha]
  · intro a ha
    simp [makeDirectRequestHeaders, ha]

/-- Witness for C8: a font-MIME response (no font inferable from the URL, and
JavaScript capture off with an allowed resource type) is captured with the
direct-fetch bytes. -/
theorem C8_font_direct_fetch_witness :
    capturedContent (captureAttempt extHM icptNoJs none reqFont
        "https://ex/f.bin" (Except.ok [1]))
      = exceptBody (makeDirectRequest extHM none reqFont) :=
  (C8_font_direct_fetch extHM icptNoJs none reqFont "https://ex/f.bin"
    respFont [1] "https://ex/f.bin" rfl rfl rfl (by decide)
    rfl rfl rfl (by decide)).1

/-! ## C1 — at most / exactly one continuation command -/

theorem issuedOk_eq_false_of_errMsg (g : GuardedOutcome) (msg : String)
    (h : g.errMsg = some msg) : g.issuedOk = false := by
  cases g with
  | thrown m => rfl
  | forwarded me p r =>
    cases r with
    | ok => simp [GuardedOutcome.errMsg] at h
    | err m => rfl

theorem issuedOk_of_errMsg_none (g : GuardedOutcome) (h : g.errMsg = none) :
    g.issuedOk = true := by
  cases g with
  | thrown m => simp [GuardedOutcome.errMsg] at h
  | forwarded me p r =>
    cases r with
    | ok => rfl
    | err m => simp [GuardedOutcome.errMsg] at h

theorem issuedCount_single_le (g : GuardedOutcome) : issuedCount [g] ≤ 1 := by
  unfold issuedCount
  cases hg : g.issuedOk <;> simp [List.filter, hg]

theorem issuedCount_single_eq_one (g : GuardedOutcome) (h : g.issuedOk = true) :
    issuedCount [g] = 1 := by
  simp [issuedCount, List.filter, h]

theorem issuedCount_single_eq_zero (g : GuardedOutcome) (h : g.issuedOk = false) :
    issuedCount [g] = 0 := by
  simp [issuedCount, List.filter, h]

theorem issuedCount_pair_le (g1 g2 : GuardedOutcome) (h : g1.issuedOk = false) :
    issuedCount [g1, g2] ≤ 1 := by
  unfold issuedCount
  cases hg : g2.issuedOk <;> simp [List.filter, h, hg]

theorem sendResponseResource_le_one (ext : Extern) (icpt : Intercept)
    (ctx : SendCtx) (request : StoredRequest) :
    issuedCount (sendResponseResource ext icpt ctx request) ≤ 1 := by
  unfold sendResponseResource
  dsimp only
  cases hf : (firstOutcome ext icpt ctx request).errMsg with
  | none => exact issuedCount_single_le _
  | some msg =>
    have h0 := issuedOk_eq_false_of_errMsg _ msg hf
    dsimp only
    by_cases hc1 : (ctx.sessionClosing && strIncludes msg "close") = true
    · rw [if_pos hc1]
      exact issuedCount_single_le _
    · rw [if_neg hc1]
      by_cases hc2 : ((msg == ABORTED_MESSAGE
          || strIncludes msg "Invalid InterceptionId")
          && ctx.abortedAfterTick request.requestId) = true
      · rw [if_pos hc2]
        exact issuedCount_single_le _
      · rw [if_neg hc2]
        exact issuedCount_pair_le _ _ h0

theorem handleRequest_le_one (ext : Extern) (icpt : Intercept) (ctx : SendCtx)
    (s : NetState) (ev : HandleRequestEvent) (sw : Bool) :
    issuedCount (handleRequest ext icpt ctx s ev sw).2 ≤ 1 := by
  unfold handleRequest
  cases h : (if ev.redirectResponse then mapGet s.requests ev.requestId else none) <;>
    cases sw <;> simp [h, issuedCount, List.filter] <;>
    exact sendResponseResource_le_one ext icpt ctx _

/-- C1 (amended): per requestPaused handled to completion, at most one
continuation command is successfully issued; exactly one is issued whenever the
first decided send succeeds; zero are issued when the first attempt raises the
aborted sentinel or an Invalid InterceptionId error and the requestId is in the
Aborted set at the post-tick recheck; and a missing or mismatched pending entry
issues zero commands. -/
theorem C1_exactly_one (ext : Extern) (icpt : Intercept) (ctx : SendCtx)
    (request : StoredRequest) :
    issuedCount (sendResponseResource ext icpt ctx request) ≤ 1
    ∧ ((firstOutcome ext icpt ctx request).errMsg = none →
        issuedCount (sendResponseResource ext icpt ctx request) = 1)
    ∧ (∀ msg, (firstOutcome ext icpt ctx request).errMsg = some msg →
        (msg = ABORTED_MESSAGE ∨ strIncludes msg "Invalid InterceptionId" = true) →
        ctx.abortedAfterTick request.requestId = true →
        issuedCount (sendResponseResource ext icpt ctx request) = 0)
    ∧ (∀ s ev res, handleRequestPaused ext icpt ctx s ev = some res →
        (pendingMatches (mapGet s.pending ev.networkId) ev = false → res.2 = [])
        ∧ issuedCount res.2 ≤ 1) := by
  refine ⟨sendResponseResource_le_one ext icpt ctx request, ?_, ?_, ?_⟩
  · intro h
    unfold sendResponseResource
    dsimp only
    rw [h]
    exact issuedCount_single_eq_one _ (issuedOk_of_errMsg_none _ h)
  · intro msg h hmatch htick
    have h0 := issuedOk_eq_false_of_errMsg _ msg h
    have hcond : (msg == ABORTED_MESSAGE
        || strIncludes msg "Invalid InterceptionId") = true := by
      rcases hmatch with h1 | h1 <;> simp [h1]
    unfold sendResponseResource
    dsimp only
    rw [h]
    dsimp only
    split
    · exact issuedCount_single_eq_zero _ h0
    · rw [hcond, htick]
      simp only [Bool.and_self, if_true]
      exact issuedCount_single_eq_zero _ h0
  · intro s ev res h
    unfold handleRequestPaused at h
    split at h
    · cases hp : mapGet s.pending ev.networkId with
      | none =>
        simp only [hp, Option.some.injEq] at h
        subst h
        exact ⟨fun _ => rfl, by simp [issuedCount, List.filter]⟩
      | some pe =>
        simp only [hp] at h
        split at h
        · next hmatch =>
          simp only [Option.some.injEq] at h
          subst h
          constructor
          · intro hpm
            exfalso
            simp only [pendingMatches] at hpm
            rw [hmatch] at hpm
            cases hpm
          · exact handleRequest_le_one ext icpt ctx _ _ false
        · simp only [Option.some.injEq] at h
          subst h
          exact ⟨fun _ => rfl, by simp [issuedCount, List.filter]⟩
    · exact absurd h (by simp)

/-- SendCtx fixture where every send succeeds and nothing is aborted. -/
def ctxOk : SendCtx := {}

/-- Witness for C1: with a matching setup and a successful send, exactly one
continuation command is issued. -/
theorem C1_exactly_one_witness :
    issuedCount (sendResponseResource extHM icptCap ctxOk reqBasic) = 1 :=
  (C1_exactly_one extHM icptCap ctxOk reqBasic).2.1 rfl

/-- A paused event whose requestWillBeSent latch is resolved but whose pending
entry is missing. -/
def pevNoPending : PausedEvent :=
  { networkId := "r1", requestId := "i1", request := { url := "https://ex/" } }

/-- A state where the latch for r1 has fired but the pending map is empty. -/
def sResolved : NetState := { resolvedRWBS := ["r1"] }

/-- Counterexample to C1 as stated: a requestPaused event delivered and handled
to completion with no (matching) pending entry issues zero continuation
commands, while no outbound send failed at all — so the claim's only exception
(a failed send with the requestId in the Aborted set) does not apply, yet the
count is not one. -/
theorem C1_counterexample :
    (handleRequestPaused extHM icptCap ctxOk sResolved pevNoPending).map
        (fun res => issuedCount res.2) = some 0
    ∧ (handleRequestPaused extHM icptCap ctxOk sResolved pevNoPending).map
        (fun res => res.2.any fun a => a.errMsg.isSome) = some false :=
  ⟨rfl, rfl⟩

/-! ## C5 — the idle timeout diagnostic -/

theorem network_error_not_timeout (r : String) :
    strStartsWith ("Network error: " ++ r) "Timeout" = false := rfl

/-- C5 (amended): on hard-ceiling expiry idle throws the diagnostic error, and
when debug logging is enabled its message contains the string Active requests:
and each in-flight request URL; without debug logging the message carries no
URL list; a session closed-reason observed while waiting is thrown immediately
as a Network error naming that reason. -/
theorem C5_idle_diagnostic (urls : List String) (u r : String) :
    idle none true true urls
      = Except.error (throwTimeoutErrorMessage true idleTimeoutBase urls)
    ∧ strIncludes (throwTimeoutErrorMessage true idleTimeoutBase urls)
        "Active requests:" = true
    ∧ (u ∈ urls →
        strIncludes (throwTimeoutErrorMessage true idleTimeoutBase urls) u = true)
    ∧ (∀ timesOut debugOn, idle (some r) timesOut debugOn urls
        = Except.error ("Network error: " ++ r)) := by
  refine ⟨rfl, ?_, ?_, ?_⟩
  · have hj := strIncludes_joinWith "\n  - " ("Active requests:" :: urls)
      "Active requests:" (List.mem_cons_self _ _)
    show occursIn "Active requests:".data
      (throwTimeoutErrorMessage true idleTimeoutBase urls).data = true
    simp only [throwTimeoutErrorMessage, if_true]
    rw [string_data_append, string_data_append, string_data_append]
    exact occursIn_append_right _ _ _ (occursIn_append_left _ _ _ hj)
  · intro hu
    have hj := strIncludes_joinWith "\n  - " ("Active requests:" :: urls) u
      (List.mem_cons_of_mem _ hu)
    show occursIn u.data
      (throwTimeoutErrorMessage true idleTimeoutBase urls).data = true
    simp only [throwTimeoutErrorMessage, if_true]
    rw [string_data_append, string_data_append, string_data_append]
    exact occursIn_append_right _ _ _ (occursIn_append_left _ _ _ hj)
  · intro timesOut debugOn
    unfold idle
    dsimp only
    rw [network_error_not_timeout]
    simp

/-- Witness for C5: the diagnostic for one in-flight URL contains that URL. -/
theorem C5_idle_diagnostic_witness :
    strIncludes (throwTimeoutErrorMessage true idleTimeoutBase ["http://u"])
      "http://u" = true :=
  (C5_idle_diagnostic ["http://u"] "http://u" "x").2.2.1 (by decide)

/-- Counterexample to C5 as stated: when debug logging is disabled, the
hard-ceiling error message contains neither the string Active requests: nor the
in-flight URL. -/
theorem C5_counterexample :
    idle none true false ["http://u"] = Except.error idleTimeoutBase
    ∧ strIncludes idleTimeoutBase "Active requests:" = false
    ∧ strIncludes idleTimeoutBase "http://u" = false :=
  ⟨rfl, by decide, by decide⟩

end PercyNet
